import Mathlib

/-!
# Verification of the DISCO-EB background cosmology module (`pylinger_cosmo.py`)

Shallow embedding of the numerical routines of `pylinger_cosmo.py` over `ℝ`:

* `ninu1` (source lines 15–53): massive-neutrino background density/pressure
  by momentum quadrature;
* `nu_perturb` (source lines 96–151 / 154–208): the four perturbation moments;
* `dtauda_` (source lines 211–218): conformal-time derivative;
* `cosmo.__init__` (source lines 220–293): the initializer's derived
  parameters `Omegak`, `taumin`, `taumax`.

The interpolation library (`jax_cosmo.scipy.interpolate.InterpolatedUnivariateSpline`)
and the Romberg integrator (`jax_cosmo.scipy.integrate.romb`) are external
collaborators of the repository; they are modelled as abstract functionals
(`SplineLib`, and a `romb` parameter), exactly as the spec treats them
("Interpolant construction/evaluation library (external collaborator)").
Floating-point arithmetic is modelled by exact real arithmetic.
-/

namespace PyLinger

noncomputable section

/-- Interface of the external interpolation library: `build(xs, ys)` followed by
`Interpolant.integral(lo, hi)` is modelled as a single abstract functional
`integral xs ys lo hi`. -/
structure SplineLib where
  integral : List ℝ → List ℝ → ℝ → ℝ → ℝ

/-- A trivial instance of the interpolation-library interface (definite integral
constantly zero), used to instantiate hypotheses at concrete inputs. -/
def zeroLib : SplineLib := { integral := fun _ _ _ _ => 0 }

/-- Source line 31: `const = 5.682196976983475` (the hard-coded decimal for 7π⁴/120). -/
def const : ℝ := 5.682196976983475

/-- Source line 35: the bin width `dq = qmax / nq`. -/
def bin (qmax : ℝ) (nq : ℕ) : ℝ := qmax / (nq : ℝ)

/-- Source line 36: `q = dq * arange(1, nq+1)`, i.e. the i-th grid point (0-based)
is `dq * (i+1)`. -/
def q_of (dq : ℝ) (i : ℕ) : ℝ := dq * ((i : ℝ) + 1)

/-- Source lines 37–38: `aq = a*amnu/q`, `v = 1/sqrt(1+aq**2)`. -/
def v_of (a amnu qi : ℝ) : ℝ := 1 / Real.sqrt (1 + (a * amnu / qi) ^ 2)

/-- Source line 39: `qdn = dq * q**3 / (exp(q) + 1)`. -/
def qdn_of (dq qi : ℝ) : ℝ := dq * qi ^ 3 / (Real.exp qi + 1)

/-- Source line 40: the density integrand samples `dum1 = qdn / v`. -/
def dum1_of (a amnu dq : ℝ) (i : ℕ) : ℝ :=
  qdn_of dq (q_of dq i) / v_of a amnu (q_of dq i)

/-- Source line 41: the pressure integrand samples `dum2 = qdn * v`. -/
def dum2_of (a amnu dq : ℝ) (i : ℕ) : ℝ :=
  qdn_of dq (q_of dq i) * v_of a amnu (q_of dq i)

/-- Source lines 43–44: the spline built over `(q, dum1)` integrated over `[0, qmax]`. -/
def rhoIntegral (L : SplineLib) (a amnu : ℝ) (nq : ℕ) (qmax : ℝ) : ℝ :=
  L.integral ((List.range nq).map (q_of (bin qmax nq)))
    ((List.range nq).map (dum1_of a amnu (bin qmax nq))) 0 qmax

/-- Source lines 45–46: the spline built over `(q, dum2)` integrated over `[0, qmax]`. -/
def pIntegral (L : SplineLib) (a amnu : ℝ) (nq : ℕ) (qmax : ℝ) : ℝ :=
  L.integral ((List.range nq).map (q_of (bin qmax nq)))
    ((List.range nq).map (dum2_of a amnu (bin qmax nq))) 0 qmax

/-- Source lines 15–53, `ninu1`: neutrino background density and pressure.
Lines 50–51 of the source:
`rhonu = (rhonu / dq + dum1[-1] / dq) / const`,
`pnu   = (pnu / dq + dum2[-1] / dq) / const / 3`;
the last sample `dum1[-1]` is the one at 0-based index `nq - 1`. -/
def ninu1 (L : SplineLib) (a amnu : ℝ) (nq : ℕ) (qmax : ℝ) : ℝ × ℝ :=
  ((rhoIntegral L a amnu nq qmax / bin qmax nq
      + dum1_of a amnu (bin qmax nq) (nq - 1) / bin qmax nq) / const,
   (pIntegral L a amnu nq qmax / bin qmax nq
      + dum2_of a amnu (bin qmax nq) (nq - 1) / bin qmax nq) / const / 3)

/-- The output formula exactly as claim C2 words it: the definite integral,
plus the final integrand sample divided by the bin width `dq`, with that sum
then divided by `dq` and by `const` (pressure additionally divided by 3). -/
def ninu1ClaimC2 (L : SplineLib) (a amnu : ℝ) (nq : ℕ) (qmax : ℝ) : ℝ × ℝ :=
  ((rhoIntegral L a amnu nq qmax
      + dum1_of a amnu (bin qmax nq) (nq - 1) / bin qmax nq) / bin qmax nq / const,
   (pIntegral L a amnu nq qmax
      + dum2_of a amnu (bin qmax nq) (nq - 1) / bin qmax nq) / bin qmax nq / const / 3)

/-- The amended C2 formula: the definite integral plus the final integrand
sample (which already carries the `dq` factor, so it is not divided by the bin
width again), with that sum then divided by `dq` and by `const` (pressure
additionally divided by 3). -/
def ninu1AmendedC2 (L : SplineLib) (a amnu : ℝ) (nq : ℕ) (qmax : ℝ) : ℝ × ℝ :=
  ((rhoIntegral L a amnu nq qmax
      + dum1_of a amnu (bin qmax nq) (nq - 1)) / bin qmax nq / const,
   (pIntegral L a amnu nq qmax
      + dum2_of a amnu (bin qmax nq) (nq - 1)) / bin qmax nq / const / 3)

/-- Source lines 211–218, `dtauda_`. NOTE (faithful to the source): the Python
source splits the sum for `grho2` over four physical lines *without a line
continuation*, so only line 214 (`grho2 = grhom * Omegam * a`) assigns to
`grho2`; lines 215–217 are bare expression statements whose values are
computed and discarded. The discarded expressions are kept here as unused
`let` bindings. -/
def dtauda_ (a grhom grhog grhor Omegam OmegaL Omegak Neff Nmnu : ℝ)
    (rhonu_spline : ℝ → ℝ) : ℝ :=
  let grho2 := grhom * Omegam * a
  let _ := grhog + grhor * (Neff + Nmnu * rhonu_spline a)
  let _ := grhom * OmegaL * a ^ 4
  let _ := grhom * Omegak * a ^ 2
  Real.sqrt (3.0 / grho2)

/-- Modelled from the spec: section 4.3 defines `dτ/da = sqrt(3 / grho2(a))`
with the full five-term sum
`grho2(a) = grhom·Omegam·a + grhog + grhor·(Neff + Nmnu·ρν(a)) +
grhom·OmegaL·a⁴ + grhom·Omegak·a²`. This definition follows the spec's words
and is used only for comparison with the source's `dtauda_`. -/
def dtauda_spec (a grhom grhog grhor Omegam OmegaL Omegak Neff Nmnu : ℝ)
    (rhonu_spline : ℝ → ℝ) : ℝ :=
  Real.sqrt (3.0 / (grhom * Omegam * a
    + (grhog + grhor * (Neff + Nmnu * rhonu_spline a))
    + grhom * OmegaL * a ^ 4
    + grhom * Omegak * a ^ 2))

/-- Source line 124: `q = arange(1, nqmax0+1) - 0.5`, the i-th node (0-based)
is `(i+1) - 0.5`. -/
def qhalf (i : ℕ) : ℝ := ((i : ℝ) + 1) - 0.5

/-- Source line 125: `qq = arange(0, nqmax0+1)`, the integer index grid. -/
def qqGrid (n : ℕ) : List ℝ := (List.range (n + 1)).map (fun i => (i : ℝ))

/-- Source lines 128–129: `aq = a*amnu/q`, `v = 1/sqrt(1+aq**2)` on the
half-integer grid. -/
def vList (a amnu : ℝ) (n : ℕ) : List ℝ :=
  (List.range n).map (fun i => 1 / Real.sqrt (1 + (a * amnu / qhalf i) ^ 2))

/-- Source line 130: `qdn = q**3 / (exp(q) + 1)` on the half-integer grid
(no `dq` factor here, unlike `ninu1`). -/
def qdnList (n : ℕ) : List ℝ :=
  (List.range n).map (fun i => (qhalf i) ^ 3 / (Real.exp (qhalf i) + 1))

/-- Elementwise binary operation with numpy/jax broadcasting semantics for 1-D
arrays: equal lengths operate pointwise, a length-1 operand is broadcast, and
any other length mismatch raises. -/
def ewise (f : ℝ → ℝ → ℝ) (xs ys : List ℝ) : Except String (List ℝ) :=
  if xs.length = ys.length then Except.ok (List.zipWith f xs ys)
  else if ys.length = 1 then Except.ok (xs.map (fun x => f x ys.headI))
  else if xs.length = 1 then Except.ok (ys.map (fun y => f xs.headI y))
  else Except.error ("InvalidArgument")

/-- Source lines 120–123 and 131–134: `g = zeros(nqmax0+1)` followed by
`g.at[1:].set(val)`; the assignment requires `val` to have the slice's
length `n` (jax raises on any other shape). -/
def setTail (n : ℕ) (v : List ℝ) : Except String (List ℝ) :=
  if v.length = n then Except.ok ((0 : ℝ) :: v)
  else Except.error ("InvalidArgument")

/-- Source lines 96–151, `nu_perturb_jax` (identical numerics in
`nu_perturb_numpy`, lines 154–208): the grid size is `nqmax0 = len(psi0)`,
`qmax0 = nqmax0 - 0.5`; the four weighted sample arrays are
`qdn*psi0/v`, `qdn*psi0*v`, `qdn*psi1`, `qdn*psi2*v`, each padded with a
leading zero, splined over the integer grid and integrated over `[0, qmax0]`;
the tail correction adds `g[-1] * 2 / qmax` (the *parameter* `qmax`, default
30, not `qmax0`), and the result is normalized by `const` (pressure `/3`,
shear `*2/3`). The parameter `nq` is accepted (source default 1000) but never
used. -/
def nu_perturb (L : SplineLib) (a amnu : ℝ) (psi0 psi1 psi2 : List ℝ)
    (nq : ℕ) (qmax : ℝ) : Except String (ℝ × ℝ × ℝ × ℝ) :=
  (ewise (fun x y => x * y) (qdnList psi0.length) psi0).bind fun t1 =>
  (ewise (fun x y => x / y) t1 (vList a amnu psi0.length)).bind fun g1v =>
  (setTail psi0.length g1v).bind fun g1 =>
  (ewise (fun x y => x * y) (qdnList psi0.length) psi0).bind fun t2 =>
  (ewise (fun x y => x * y) t2 (vList a amnu psi0.length)).bind fun g2v =>
  (setTail psi0.length g2v).bind fun g2 =>
  (ewise (fun x y => x * y) (qdnList psi0.length) psi1).bind fun g3v =>
  (setTail psi0.length g3v).bind fun g3 =>
  (ewise (fun x y => x * y) (qdnList psi0.length) psi2).bind fun t4 =>
  (ewise (fun x y => x * y) t4 (vList a amnu psi0.length)).bind fun g4v =>
  (setTail psi0.length g4v).bind fun g4 =>
  Except.ok
    ((L.integral (qqGrid psi0.length) g1 0 ((psi0.length : ℝ) - 0.5)
        + g1.getLastD 0 * 2 / qmax) / const,
     (L.integral (qqGrid psi0.length) g2 0 ((psi0.length : ℝ) - 0.5)
        + g2.getLastD 0 * 2 / qmax) / const / 3,
     (L.integral (qqGrid psi0.length) g3 0 ((psi0.length : ℝ) - 0.5)
        + g3.getLastD 0 * 2 / qmax) / const,
     (L.integral (qqGrid psi0.length) g4 0 ((psi0.length : ℝ) - 0.5)
        + g4.getLastD 0 * 2 / qmax) / const * 2 / 3)

/-- The four moments exactly as claim C3 words them (for equal-length inputs):
each is the interpolant's definite integral over `[0, qmax0]` of the padded
weighted samples, plus `2·(last raw weighted sample)/qmax` using the global
`qmax` constant, divided by `const`; the pressure moment is additionally
scaled by `1/3` and the shear moment by `2/3`. -/
def nuPerturbClaimC3 (L : SplineLib) (a amnu : ℝ) (psi0 psi1 psi2 : List ℝ)
    (qmax : ℝ) : ℝ × ℝ × ℝ × ℝ :=
  let n := psi0.length
  let qmax0 : ℝ := (n : ℝ) - 0.5
  let w1 : List ℝ := List.zipWith (fun x y => x / y)
    (List.zipWith (fun x y => x * y) (qdnList n) psi0) (vList a amnu n)
  let w2 : List ℝ := List.zipWith (fun x y => x * y)
    (List.zipWith (fun x y => x * y) (qdnList n) psi0) (vList a amnu n)
  let w3 : List ℝ := List.zipWith (fun x y => x * y) (qdnList n) psi1
  let w4 : List ℝ := List.zipWith (fun x y => x * y)
    (List.zipWith (fun x y => x * y) (qdnList n) psi2) (vList a amnu n)
  ((L.integral (qqGrid n) ((0 : ℝ) :: w1) 0 qmax0 + 2 * w1.getLastD 0 / qmax) / const,
   (L.integral (qqGrid n) ((0 : ℝ) :: w2) 0 qmax0 + 2 * w2.getLastD 0 / qmax) / const * (1 / 3),
   (L.integral (qqGrid n) ((0 : ℝ) :: w3) 0 qmax0 + 2 * w3.getLastD 0 / qmax) / const,
   (L.integral (qqGrid n) ((0 : ℝ) :: w4) 0 qmax0 + 2 * w4.getLastD 0 / qmax) / const * (2 / 3))

/-- The derived parameters computed by `cosmo.__init__` (source lines
222–281) that the claims refer to. `Nmnu` is an integer in the source; it is
modelled as a real since it only enters products. -/
structure CosmoRecord where
  Omegam : ℝ
  Omegab : ℝ
  OmegaL : ℝ
  Omegac : ℝ
  Omegak : ℝ
  H0 : ℝ
  Tcmb : ℝ
  YHe : ℝ
  Neff : ℝ
  Nmnu : ℝ
  mnu : ℝ
  grhom : ℝ
  grhog : ℝ
  grhor : ℝ
  adotrad : ℝ
  amnu : ℝ
  amin : ℝ
  amax : ℝ
  taumin : ℝ
  taumax : ℝ

/-- Source lines 222–281 of `cosmo.__init__`: the derived scalar parameters.
The Romberg integrator `romb` (external, `jax_cosmo.scipy.integrate.romb`)
and the neutrino-density interpolant `rhonu_spline` (built by the external
spline library from the `ninu1` table, lines 260–267) are abstract
parameters. Line 229 sets `Omegak = 0.0` with the curvature derivation
`1.0 - Omegam - OmegaL` commented out. Lines 278–279 set
`taumin = amin / adotrad` and
`taumax = taumin + romb(λ loga. exp(loga) * dtauda_(exp(loga), ...), log(amin), log(amax))`. -/
def cosmo_init (romb : (ℝ → ℝ) → ℝ → ℝ → ℝ) (rhonu_spline : ℝ → ℝ)
    (Omegam Omegab OmegaL H0 Tcmb YHe Neff Nmnu mnu : ℝ) : CosmoRecord :=
  { Omegam := Omegam
    Omegab := Omegab
    OmegaL := OmegaL
    Omegac := Omegam - Omegab
    Omegak := 0.0
    H0 := H0
    Tcmb := Tcmb
    YHe := YHe
    Neff := Neff
    Nmnu := Nmnu
    mnu := mnu
    grhom := 3.3379e-11 * H0 ^ 2
    grhog := 1.4952e-13 * Tcmb ^ 4
    grhor := 3.3957e-14 * Tcmb ^ 4
    adotrad := 2.8948e-7 * Tcmb ^ 2
    amnu := mnu * 1.62581581e4 / Tcmb
    amin := 1e-9
    amax := 1.01
    taumin := 1e-9 / (2.8948e-7 * Tcmb ^ 2)
    taumax := 1e-9 / (2.8948e-7 * Tcmb ^ 2)
      + romb (fun loga => Real.exp loga
          * dtauda_ (Real.exp loga) (3.3379e-11 * H0 ^ 2) (1.4952e-13 * Tcmb ^ 4)
              (3.3957e-14 * Tcmb ^ 4) Omegam OmegaL 0.0 Neff Nmnu rhonu_spline)
          (Real.log 1e-9) (Real.log 1.01) }

/-! ## Helper lemmas -/

theorem ok_bind {α β : Type} (x : α) (f : α → Except String β) :
    (Except.ok x : Except String α).bind f = f x := rfl

theorem err_bind {α β : Type} (e : String) (f : α → Except String β) :
    (Except.error e : Except String α).bind f = Except.error e := rfl

theorem ewise_ok (f : ℝ → ℝ → ℝ) (xs ys : List ℝ) (h : xs.length = ys.length) :
    ewise f xs ys = Except.ok (List.zipWith f xs ys) := by
  simp [ewise, h]

theorem setTail_ok (n : ℕ) (v : List ℝ) (h : v.length = n) :
    setTail n v = Except.ok ((0 : ℝ) :: v) := by
  simp [setTail, h]

/-- Repeated division by the bin width `3/100` changes a positive value, so the
code's tail term `t/dq` cannot equal the claimed `t/dq/dq`. -/
theorem tail_double_div (t c : ℝ) (hc : 0 < c) (ht : 0 < t) :
    t / (3 / 100) / c ≠ t / (3 / 100) / (3 / 100) / c := by
  have h1 : t / (3 / 100) = t * (100 / 3) := by ring
  have h2 : t / (3 / 100) / (3 / 100) = t * (100 / 3) * (100 / 3) := by ring
  have key : t / (3 / 100) < t / (3 / 100) / (3 / 100) := by
    rw [h2, h1]
    nlinarith [ht]
  exact ne_of_lt ((div_lt_div_iff_of_pos_right hc).mpr key)

/-- At zero neutrino mass the integrand samples do not depend on the scale
factor (`aq = a·0/q = 0`), so neither does `ninu1`; this is the provable part
of the spec's massless-limit property. -/
theorem ninu1_mass_zero_indep (L : SplineLib) (a1 a2 : ℝ) (nq : ℕ) (qmax : ℝ) :
    ninu1 L a1 0 nq qmax = ninu1 L a2 0 nq qmax := by
  have hd1 : dum1_of a1 0 = dum1_of a2 0 := by
    funext dq i
    simp [dum1_of, v_of, mul_zero, zero_div]
  have hd2 : dum2_of a1 0 = dum2_of a2 0 := by
    funext dq i
    simp [dum2_of, v_of, mul_zero, zero_div]
  simp only [ninu1, rhoIntegral, pIntegral, hd1, hd2]

theorem length_qdnList (n : ℕ) : (qdnList n).length = n := by
  simp [qdnList]

theorem length_vList (a amnu : ℝ) (n : ℕ) : (vList a amnu n).length = n := by
  simp [vList]

theorem ewise_broadcast_right (f : ℝ → ℝ → ℝ) (xs ys : List ℝ)
    (hxy : xs.length ≠ ys.length) (hy : ys.length = 1) :
    ewise f xs ys = Except.ok (xs.map (fun x => f x ys.headI)) := by
  unfold ewise
  rw [if_neg hxy, if_pos hy]

theorem ewise_broadcast_left (f : ℝ → ℝ → ℝ) (xs ys : List ℝ)
    (hxy : xs.length ≠ ys.length) (hy : ys.length ≠ 1) (hx : xs.length = 1) :
    ewise f xs ys = Except.ok (ys.map (fun y => f xs.headI y)) := by
  unfold ewise
  rw [if_neg hxy, if_neg hy, if_pos hx]

theorem ewise_err (f : ℝ → ℝ → ℝ) (xs ys : List ℝ)
    (hxy : xs.length ≠ ys.length) (hy : ys.length ≠ 1) (hx : xs.length ≠ 1) :
    ewise f xs ys = Except.error ("InvalidArgument") := by
  unfold ewise
  rw [if_neg hxy, if_neg hy, if_neg hx]

theorem setTail_err (n : ℕ) (v : List ℝ) (h : v.length ≠ n) :
    setTail n v = Except.error ("InvalidArgument") := by
  unfold setTail
  rw [if_neg h]

theorem zipWith_mul_replicate_zero (xs : List ℝ) (n : ℕ) (h : xs.length = n) :
    List.zipWith (fun x y => x * y) xs (List.replicate n (0 : ℝ)) = List.replicate n 0 := by
  induction xs generalizing n with
  | nil => subst h; rfl
  | cons x xs ih =>
      cases n with
      | zero => simp at h
      | succ m =>
          simp only [List.replicate_succ, List.zipWith_cons_cons, mul_zero]
          rw [ih m (by simpa using h)]

theorem zipWith_div_replicate_zero (ys : List ℝ) (n : ℕ) (h : ys.length = n) :
    List.zipWith (fun x y => x / y) (List.replicate n (0 : ℝ)) ys = List.replicate n 0 := by
  induction ys generalizing n with
  | nil => subst h; rfl
  | cons y ys ih =>
      cases n with
      | zero => simp at h
      | succ m =>
          simp only [List.replicate_succ, List.zipWith_cons_cons, zero_div]
          rw [ih m (by simpa using h)]

theorem zipWith_zero_mul (ys : List ℝ) (n : ℕ) (h : ys.length = n) :
    List.zipWith (fun x y => x * y) (List.replicate n (0 : ℝ)) ys = List.replicate n 0 := by
  induction ys generalizing n with
  | nil => subst h; rfl
  | cons y ys ih =>
      cases n with
      | zero => simp at h
      | succ m =>
          simp only [List.replicate_succ, List.zipWith_cons_cons, zero_mul]
          rw [ih m (by simpa using h)]

theorem getLastD_replicate_zero (n : ℕ) :
    (List.replicate n (0 : ℝ)).getLastD 0 = 0 := by
  induction n with
  | zero => rfl
  | succ m ih => rw [List.replicate_succ, List.getLastD_cons, ih]

/-! ## Claim theorems -/

/-- Claim C1 (code bug): because source lines 215–217 are dangling `+`
expressions that never contribute to `grho2`, `dtauda_` returns
`sqrt(3/(grhom·Omegam·a))` instead of the spec's `sqrt(3/grho2)` with the
five-term sum. At `a = grhom = grhog = grhor = Omegam = OmegaL = Omegak =
Neff = 1`, `Nmnu = 0`, `ρν ≡ 0` the code gives `sqrt 3` while the spec's
formula gives `sqrt (3/5)`, and the two differ. -/
theorem dtauda_drops_friedmann_terms :
    dtauda_ 1 1 1 1 1 1 1 1 0 (fun _ => 0) = Real.sqrt 3 ∧
    dtauda_spec 1 1 1 1 1 1 1 1 0 (fun _ => 0) = Real.sqrt (3 / 5) ∧
    dtauda_ 1 1 1 1 1 1 1 1 0 (fun _ => 0) ≠ dtauda_spec 1 1 1 1 1 1 1 1 0 (fun _ => 0) := by
  have h1 : dtauda_ 1 1 1 1 1 1 1 1 0 (fun _ => 0) = Real.sqrt 3 := by
    norm_num [dtauda_]
  have h2 : dtauda_spec 1 1 1 1 1 1 1 1 0 (fun _ => 0) = Real.sqrt (3 / 5) := by
    norm_num [dtauda_spec]
  refine ⟨h1, h2, ?_⟩
  rw [h1, h2]
  intro h
  have h3 : Real.sqrt 3 ^ 2 = Real.sqrt (3 / 5) ^ 2 := by rw [h]
  rw [Real.sq_sqrt (by norm_num), Real.sq_sqrt (by norm_num)] at h3
  norm_num at h3

/-- Claim C2 as stated is false: the code adds `dum1[-1]/dq` to the *already
divided* quadrature result `rhonu/dq`, so the tail term is divided by the bin
width once, not twice as the claim's wording requires. Refuted at
`a = 1`, `amnu = 0` with the default grid (`nq = 1000`, `qmax = 30`),
uniformly in the interpolation library. -/
theorem ninu1_claimC2_refuted :
    ¬ ∀ (L : SplineLib) (a amnu : ℝ), 0 ≤ amnu →
        ninu1 L a amnu 1000 30 = ninu1ClaimC2 L a amnu 1000 30 := by
  intro hcl
  have h0 := congrArg Prod.fst (hcl zeroLib 1 0 le_rfl)
  have hbin : bin 30 1000 = 3 / 100 := by
    norm_num [bin]
  have hz : rhoIntegral zeroLib 1 0 1000 30 = 0 := rfl
  have hidx : (1000 : ℕ) - 1 = 999 := rfl
  simp only [ninu1, ninu1ClaimC2, hz, hbin, hidx, zero_div, zero_add] at h0
  have ht : 0 < dum1_of 1 0 (3 / 100) 999 := by
    unfold dum1_of qdn_of v_of q_of
    positivity
  exact tail_double_div _ const (by norm_num [const]) ht h0

/-- Claim C2, amended: `ninu1` returns the interpolant's definite integral
plus the final integrand sample (not further divided by the bin width — the
sample already carries the `dq` factor), the sum divided by `dq` and by
`const`; the pressure component additionally by 3. -/
theorem ninu1_tail_amended (L : SplineLib) (a amnu : ℝ) (nq : ℕ) (qmax : ℝ) :
    ninu1 L a amnu nq qmax = ninu1AmendedC2 L a amnu nq qmax := by
  simp only [ninu1, ninu1AmendedC2, Prod.mk.injEq]
  constructor <;> ring

/-- Claim C8: during cosmology construction `taumin` is exactly
`amin/adotrad`, and `taumax` is `taumin` plus the fixed-order quadrature of
`exp(loga) * dtauda_(exp(loga), ...)` over `[ln amin, ln amax]`. -/
theorem cosmo_taumin_taumax_eq (romb : (ℝ → ℝ) → ℝ → ℝ → ℝ) (rhonu_spline : ℝ → ℝ)
    (Omegam Omegab OmegaL H0 Tcmb YHe Neff Nmnu mnu : ℝ) :
    (cosmo_init romb rhonu_spline Omegam Omegab OmegaL H0 Tcmb YHe Neff Nmnu mnu).taumin
      = (cosmo_init romb rhonu_spline Omegam Omegab OmegaL H0 Tcmb YHe Neff Nmnu mnu).amin
        / (cosmo_init romb rhonu_spline Omegam Omegab OmegaL H0 Tcmb YHe Neff Nmnu mnu).adotrad ∧
    (cosmo_init romb rhonu_spline Omegam Omegab OmegaL H0 Tcmb YHe Neff Nmnu mnu).taumax
      = (cosmo_init romb rhonu_spline Omegam Omegab OmegaL H0 Tcmb YHe Neff Nmnu mnu).taumin
        + romb (fun loga => Real.exp loga * dtauda_ (Real.exp loga)
            ((cosmo_init romb rhonu_spline Omegam Omegab OmegaL H0 Tcmb YHe Neff Nmnu mnu).grhom)
            ((cosmo_init romb rhonu_spline Omegam Omegab OmegaL H0 Tcmb YHe Neff Nmnu mnu).grhog)
            ((cosmo_init romb rhonu_spline Omegam Omegab OmegaL H0 Tcmb YHe Neff Nmnu mnu).grhor)
            Omegam OmegaL
            ((cosmo_init romb rhonu_spline Omegam Omegab OmegaL H0 Tcmb YHe Neff Nmnu mnu).Omegak)
            Neff Nmnu rhonu_spline)
          (Real.log ((cosmo_init romb rhonu_spline Omegam Omegab OmegaL H0 Tcmb YHe Neff Nmnu mnu).amin))
          (Real.log ((cosmo_init romb rhonu_spline Omegam Omegab OmegaL H0 Tcmb YHe Neff Nmnu mnu).amax)) :=
  ⟨rfl, rfl⟩

/-- Claim C9: the stored `Omegak` is exactly `0` for every construction,
regardless of `Omegam` and `OmegaL` (line 229 hard-codes `0.0`; the curvature
derivation is commented out). -/
theorem cosmo_Omegak_zero (romb : (ℝ → ℝ) → ℝ → ℝ → ℝ) (rhonu_spline : ℝ → ℝ)
    (Omegam Omegab OmegaL H0 Tcmb YHe Neff Nmnu mnu : ℝ) :
    (cosmo_init romb rhonu_spline Omegam Omegab OmegaL H0 Tcmb YHe Neff Nmnu mnu).Omegak = 0 := by
  norm_num [cosmo_init]

/-- Claim C10: the outputs of `nu_perturb` do not depend on its `nq`
parameter; the integration grid is sized by `len(psi0)` alone. -/
theorem nu_perturb_nq_irrelevant (L : SplineLib) (a amnu : ℝ)
    (psi0 psi1 psi2 : List ℝ) (nq1 nq2 : ℕ) (qmax : ℝ) :
    nu_perturb L a amnu psi0 psi1 psi2 nq1 qmax
      = nu_perturb L a amnu psi0 psi1 psi2 nq2 qmax := rfl

/-- Claim C3: for equal-length inputs, each of `nu_perturb`'s four moments is
the interpolant's definite integral over `[0, qmax0]` (`qmax0 = nqmax0 - 0.5`)
plus `2·(last raw weighted sample)/qmax` — the *global* `qmax` parameter, not
`qmax0` — divided by `const`, with the pressure moment additionally scaled by
`1/3` and the shear moment by `2/3`. -/
theorem nu_perturb_matches_claimC3 (L : SplineLib) (a amnu : ℝ)
    (psi0 psi1 psi2 : List ℝ) (nq : ℕ) (qmax : ℝ)
    (h1 : psi1.length = psi0.length) (h2 : psi2.length = psi0.length) :
    nu_perturb L a amnu psi0 psi1 psi2 nq qmax
      = Except.ok (nuPerturbClaimC3 L a amnu psi0 psi1 psi2 qmax) := by
  simp only [nu_perturb, nuPerturbClaimC3, ewise_ok, setTail_ok, ok_bind,
    length_qdnList, length_vList, List.length_zipWith, min_self, h1, h2,
    List.getLastD_cons, Except.ok.injEq, Prod.mk.injEq]
  refine ⟨?_, ?_, ?_, ?_⟩ <;> ring

/-- Witness for C3 at a concrete input: three equal-length singleton lists. -/
theorem nu_perturb_matches_claimC3_witness :
    ([(1 : ℝ)]).length = ([(1 : ℝ)]).length ∧
    ([(1 : ℝ)]).length = ([(1 : ℝ)]).length ∧
    nu_perturb zeroLib 0 0 [(1 : ℝ)] [(1 : ℝ)] [(1 : ℝ)] 1000 30
      = Except.ok (nuPerturbClaimC3 zeroLib 0 0 [(1 : ℝ)] [(1 : ℝ)] [(1 : ℝ)] 30) :=
  ⟨rfl, rfl, nu_perturb_matches_claimC3 zeroLib 0 0 [(1 : ℝ)] [(1 : ℝ)] [(1 : ℝ)] 1000 30 rfl rfl⟩

/-- Claim C4 as stated is false: a mismatched `psi1` of length 1 against a
`psi0` of length 10 is silently broadcast by the array library's 1-D
broadcasting rule, and `nu_perturb` returns a value instead of an
`InvalidArgument` error. -/
theorem nu_perturb_broadcast_refutes_C4 :
    (List.replicate 10 (1 : ℝ)).length ≠ ([(1 : ℝ)]).length ∧
    ∃ y, nu_perturb zeroLib 0 0 (List.replicate 10 (1 : ℝ)) [(1 : ℝ)]
      (List.replicate 10 (1 : ℝ)) 1000 30 = Except.ok y := by
  refine ⟨by simp, ?_⟩
  simp only [nu_perturb, List.length_replicate, List.length_cons, List.length_nil,
    length_qdnList, length_vList, List.length_zipWith, List.length_map, min_self,
    ewise_ok, ewise_broadcast_right, setTail_ok, ok_bind]
  exact ⟨_, rfl⟩

/-- A `psi1` whose length differs from `psi0`'s and is not 1 makes
`nu_perturb` fail at the third weighted array, whatever `psi2` is. -/
theorem nu_perturb_psi1_mismatch_err (L : SplineLib) (a amnu : ℝ)
    (psi0 psi1 psi2 : List ℝ) (nq : ℕ) (qmax : ℝ)
    (hne : psi1.length ≠ psi0.length) (h1 : psi1.length ≠ 1) :
    nu_perturb L a amnu psi0 psi1 psi2 nq qmax = Except.error ("InvalidArgument") := by
  have hql : (qdnList psi0.length).length = psi0.length := length_qdnList _
  simp only [nu_perturb]
  rw [ewise_ok (fun x y => x * y) (qdnList psi0.length) psi0 (by simp [length_qdnList])]
  simp only [ok_bind]
  rw [ewise_ok _ _ _ (by simp [length_qdnList, length_vList, List.length_zipWith, min_self])]
  simp only [ok_bind]
  rw [setTail_ok _ _ (by simp [length_qdnList, length_vList, List.length_zipWith, min_self])]
  simp only [ok_bind]
  rw [ewise_ok _ _ _ (by simp [length_qdnList, length_vList, List.length_zipWith, min_self])]
  simp only [ok_bind]
  rw [setTail_ok _ _ (by simp [length_qdnList, length_vList, List.length_zipWith, min_self])]
  simp only [ok_bind]
  by_cases hn1 : psi0.length = 1
  · rw [ewise_broadcast_left _ _ _ (by rw [hql]; exact fun h => hne h.symm) h1 (by rw [hql]; exact hn1)]
    simp only [ok_bind]
    rw [setTail_err _ _ (by simpa using hne)]
    simp only [err_bind]
  · rw [ewise_err _ _ _ (by rw [hql]; exact fun h => hne h.symm) h1 (by rw [hql]; exact hn1)]
    simp only [err_bind]

/-- A `psi2` whose length differs from `psi0`'s and is not 1 makes
`nu_perturb` fail at the fourth weighted array, provided `psi1` itself passes
(its length equals `psi0`'s or is 1, so the earlier steps succeed). -/
theorem nu_perturb_psi2_mismatch_err (L : SplineLib) (a amnu : ℝ)
    (psi0 psi1 psi2 : List ℝ) (nq : ℕ) (qmax : ℝ)
    (hp1 : psi1.length = psi0.length ∨ psi1.length = 1)
    (hne : psi2.length ≠ psi0.length) (h2 : psi2.length ≠ 1) :
    nu_perturb L a amnu psi0 psi1 psi2 nq qmax = Except.error ("InvalidArgument") := by
  have hql : (qdnList psi0.length).length = psi0.length := length_qdnList _
  simp only [nu_perturb]
  rw [ewise_ok (fun x y => x * y) (qdnList psi0.length) psi0 (by simp [length_qdnList])]
  simp only [ok_bind]
  rw [ewise_ok _ _ _ (by simp [length_qdnList, length_vList, List.length_zipWith, min_self])]
  simp only [ok_bind]
  rw [setTail_ok _ _ (by simp [length_qdnList, length_vList, List.length_zipWith, min_self])]
  simp only [ok_bind]
  rw [ewise_ok _ _ _ (by simp [length_qdnList, length_vList, List.length_zipWith, min_self])]
  simp only [ok_bind]
  rw [setTail_ok _ _ (by simp [length_qdnList, length_vList, List.length_zipWith, min_self])]
  simp only [ok_bind]
  rcases hp1 with hp1 | hp1
  · rw [ewise_ok _ _ _ (by simp [length_qdnList, hp1])]
    simp only [ok_bind]
    rw [setTail_ok _ _ (by simp [length_qdnList, hp1, List.length_zipWith, min_self])]
    simp only [ok_bind]
    by_cases hn1 : psi0.length = 1
    · rw [ewise_broadcast_left _ _ _ (by rw [hql, hn1]; exact fun h => h2 h.symm) h2
        (by rw [hql]; exact hn1)]
      simp only [ok_bind]
      rw [ewise_broadcast_right _ _ _ (by simp [length_vList, hn1, h2]) (by simp [length_vList, hn1])]
      simp only [ok_bind]
      rw [setTail_err _ _ (by simp [hn1, h2])]
      simp only [err_bind]
    · rw [ewise_err _ _ _ (by rw [hql]; exact fun h => hne h.symm) h2 (by rw [hql]; exact hn1)]
      simp only [err_bind]
  · by_cases hn1 : psi0.length = 1
    · rw [ewise_ok _ _ _ (by rw [hql, hp1, hn1])]
      simp only [ok_bind]
      rw [setTail_ok _ _ (by simp [length_qdnList, hp1, List.length_zipWith, min_self, hn1])]
      simp only [ok_bind]
      rw [ewise_broadcast_left _ _ _ (by rw [hql, hn1]; exact fun h => h2 h.symm) h2
        (by rw [hql]; exact hn1)]
      simp only [ok_bind]
      rw [ewise_broadcast_right _ _ _ (by simp [length_vList, hn1, h2]) (by simp [length_vList, hn1])]
      simp only [ok_bind]
      rw [setTail_err _ _ (by simp [hn1, h2])]
      simp only [err_bind]
    · rw [ewise_broadcast_right _ _ _ (by rw [hql, hp1]; exact hn1) hp1]
      simp only [ok_bind]
      rw [setTail_ok _ _ (by simp [length_qdnList])]
      simp only [ok_bind]
      rw [ewise_err _ _ _ (by rw [hql]; exact fun h => hne h.symm) h2 (by rw [hql]; exact hn1)]
      simp only [err_bind]

/-- Claim C4, amended: a `psi1` or `psi2` whose length differs from `psi0`'s
*and* is not 1 makes `nu_perturb` signal an `InvalidArgument` error; a
mismatched input of length 1 is instead silently broadcast. -/
theorem nu_perturb_mismatch_error (L : SplineLib) (a amnu : ℝ)
    (psi0 psi1 psi2 : List ℝ) (nq : ℕ) (qmax : ℝ)
    (hbad : (psi1.length ≠ psi0.length ∧ psi1.length ≠ 1)
      ∨ (psi2.length ≠ psi0.length ∧ psi2.length ≠ 1)) :
    nu_perturb L a amnu psi0 psi1 psi2 nq qmax = Except.error ("InvalidArgument") := by
  rcases hbad with ⟨h, h1⟩ | ⟨h, h2⟩
  · exact nu_perturb_psi1_mismatch_err L a amnu psi0 psi1 psi2 nq qmax h h1
  · by_cases hp1 : psi1.length = psi0.length ∨ psi1.length = 1
    · exact nu_perturb_psi2_mismatch_err L a amnu psi0 psi1 psi2 nq qmax hp1 h h2
    · push_neg at hp1
      exact nu_perturb_psi1_mismatch_err L a amnu psi0 psi1 psi2 nq qmax hp1.1 hp1.2

/-- Witness for the amended C4, exercising both branches: `psi0` of length 10
with `psi1` of length 9 (the spec's invalid-input scenario), and `psi0` of
length 10 with matching `psi1` but `psi2` of length 7; each yields an
`InvalidArgument` error. -/
theorem nu_perturb_mismatch_error_witness :
    ((List.replicate 9 (1 : ℝ)).length ≠ (List.replicate 10 (1 : ℝ)).length ∧
      (List.replicate 9 (1 : ℝ)).length ≠ 1) ∧
    nu_perturb zeroLib 0 0 (List.replicate 10 (1 : ℝ)) (List.replicate 9 (1 : ℝ))
      (List.replicate 10 (1 : ℝ)) 1000 30 = Except.error ("InvalidArgument") ∧
    ((List.replicate 7 (1 : ℝ)).length ≠ (List.replicate 10 (1 : ℝ)).length ∧
      (List.replicate 7 (1 : ℝ)).length ≠ 1) ∧
    nu_perturb zeroLib 0 0 (List.replicate 10 (1 : ℝ)) (List.replicate 10 (1 : ℝ))
      (List.replicate 7 (1 : ℝ)) 1000 30 = Except.error ("InvalidArgument") :=
  ⟨⟨by simp, by simp⟩,
   nu_perturb_mismatch_error zeroLib 0 0 (List.replicate 10 (1 : ℝ))
     (List.replicate 9 (1 : ℝ)) (List.replicate 10 (1 : ℝ)) 1000 30
     (Or.inl ⟨by simp, by simp⟩),
   ⟨by simp, by simp⟩,
   nu_perturb_mismatch_error zeroLib 0 0 (List.replicate 10 (1 : ℝ))
     (List.replicate 10 (1 : ℝ)) (List.replicate 7 (1 : ℝ)) 1000 30
     (Or.inr ⟨by simp, by simp⟩)⟩

/-- Claim C6: with all-zero `psi0, psi1, psi2` of any common positive length,
`nu_perturb` returns exactly `(0, 0, 0, 0)` (given that the external
interpolation library integrates all-zero samples to zero, which holds for
any linear interpolation scheme). -/
theorem nu_perturb_zero_inputs (L : SplineLib) (a amnu qmax : ℝ) (n nq : ℕ)
    (_hn : 0 < n)
    (hL : L.integral (qqGrid n) (List.replicate (n + 1) (0 : ℝ)) 0 ((n : ℝ) - 0.5) = 0) :
    nu_perturb L a amnu (List.replicate n 0) (List.replicate n 0) (List.replicate n 0) nq qmax
      = Except.ok (0, 0, 0, 0) := by
  have hq : (qdnList n).length = n := length_qdnList n
  have hv : (vList a amnu n).length = n := length_vList a amnu n
  simp only [nu_perturb, List.length_replicate, ewise_ok, setTail_ok, ok_bind,
    zipWith_mul_replicate_zero, zipWith_div_replicate_zero, zipWith_zero_mul,
    hq, hv, List.length_replicate, ← List.replicate_succ]
  rw [hL, getLastD_replicate_zero]
  norm_num

/-- Witness for C6 at a concrete input: singleton zero lists and the trivial
interpolation library. -/
theorem nu_perturb_zero_inputs_witness :
    0 < 1 ∧
    zeroLib.integral (qqGrid 1) (List.replicate 2 (0 : ℝ)) 0 ((1 : ℝ) - 0.5) = 0 ∧
    nu_perturb zeroLib 0 0 (List.replicate 1 0) (List.replicate 1 0) (List.replicate 1 0) 1000 30
      = Except.ok (0, 0, 0, 0) :=
  ⟨Nat.one_pos, rfl, nu_perturb_zero_inputs zeroLib 0 0 30 1 1000 Nat.one_pos rfl⟩

/-- Claim C7: for fixed `a ≥ 0` and `0 ≤ amnu1 ≤ amnu2`, the density returned
by `ninu1` is monotonically non-decreasing in `amnu` (given that the external
library's definite integral is monotone in the data samples). -/
theorem ninu1_density_mono_amnu (L : SplineLib) (a amnu1 amnu2 qmax : ℝ) (nq : ℕ)
    (ha : 0 ≤ a) (h1 : 0 ≤ amnu1) (h12 : amnu1 ≤ amnu2) (hq : 0 < qmax) (hnq : 0 < nq)
    (hmono : ∀ f g : ℕ → ℝ, (∀ i, f i ≤ g i) →
      L.integral ((List.range nq).map (q_of (bin qmax nq))) ((List.range nq).map f) 0 qmax
        ≤ L.integral ((List.range nq).map (q_of (bin qmax nq))) ((List.range nq).map g) 0 qmax) :
    (ninu1 L a amnu1 nq qmax).1 ≤ (ninu1 L a amnu2 nq qmax).1 := by
  have hnqR : (0 : ℝ) < (nq : ℝ) := by exact_mod_cast hnq
  have hdq : 0 < bin qmax nq := div_pos hq hnqR
  have key : ∀ i, dum1_of a amnu1 (bin qmax nq) i ≤ dum1_of a amnu2 (bin qmax nq) i := by
    intro i
    have hqi : 0 < q_of (bin qmax nq) i := by
      unfold q_of
      positivity
    have hqdn : 0 ≤ qdn_of (bin qmax nq) (q_of (bin qmax nq) i) := by
      unfold qdn_of
      positivity
    have ht1 : 0 ≤ a * amnu1 / q_of (bin qmax nq) i := by positivity
    have htle : a * amnu1 / q_of (bin qmax nq) i ≤ a * amnu2 / q_of (bin qmax nq) i :=
      (div_le_div_iff_of_pos_right hqi).mpr (mul_le_mul_of_nonneg_left h12 ha)
    have hs : Real.sqrt (1 + (a * amnu1 / q_of (bin qmax nq) i) ^ 2)
        ≤ Real.sqrt (1 + (a * amnu2 / q_of (bin qmax nq) i) ^ 2) :=
      Real.sqrt_le_sqrt (by nlinarith [ht1, htle])
    unfold dum1_of v_of
    rw [one_div, one_div, div_inv_eq_mul, div_inv_eq_mul]
    exact mul_le_mul_of_nonneg_left hs hqdn
  have hI : rhoIntegral L a amnu1 nq qmax ≤ rhoIntegral L a amnu2 nq qmax := by
    unfold rhoIntegral
    exact hmono _ _ key
  have hconst : (0 : ℝ) < const := by norm_num [const]
  show (rhoIntegral L a amnu1 nq qmax / bin qmax nq
      + dum1_of a amnu1 (bin qmax nq) (nq - 1) / bin qmax nq) / const
    ≤ (rhoIntegral L a amnu2 nq qmax / bin qmax nq
      + dum1_of a amnu2 (bin qmax nq) (nq - 1) / bin qmax nq) / const
  exact (div_le_div_iff_of_pos_right hconst).mpr
    (add_le_add ((div_le_div_iff_of_pos_right hdq).mpr hI)
      ((div_le_div_iff_of_pos_right hdq).mpr (key (nq - 1))))

/-- Witness for C7 at a concrete input: `a = 1`, `amnu1 = 0 ≤ amnu2 = 1`, the
default grid, and the trivial (monotone) interpolation library. -/
theorem ninu1_density_mono_amnu_witness :
    (0 : ℝ) ≤ 1 ∧ (0 : ℝ) ≤ 0 ∧ (0 : ℝ) ≤ 1 ∧ (0 : ℝ) < 30 ∧ 0 < 1000 ∧
    (ninu1 zeroLib 1 0 1000 30).1 ≤ (ninu1 zeroLib 1 1 1000 30).1 :=
  ⟨zero_le_one, le_refl 0, zero_le_one, by norm_num, by norm_num,
   ninu1_density_mono_amnu zeroLib 1 0 1 30 1000 zero_le_one (le_refl 0) zero_le_one
     (by norm_num) (by norm_num) (fun f g h => le_rfl)⟩

end

end PyLinger
